import Mathlib

/-! Verification of the react-native-global-store provider (src/index.tsx).

The module is a thin global-state container: a provider holding a merged
key/value snapshot and a loading flag, a persistence adapter writing a
whitelisted subset of the snapshot to async storage, and a class-component
adapter injecting the snapshot and the setter as props. Below is a shallow
embedding of that code: JS objects become association lists, the async
storage boundary becomes explicit read/write results, and the provider's
React state becomes an explicit `Store` record threaded through the
operations. -/

namespace GlobalStore

/-- JS object keys are strings. -/
abbrev Key := String

/-- A JavaScript plain object used as a state mapping: an association list
of keys to values. Lookup returns the first binding for a key. -/
abbrev Obj (V : Type) : Type := List (Key × V)

/-- Property lookup `o[k]` on an object, `none` when the key is absent. -/
def Obj.get {V : Type} : Obj V → Key → Option V
  | [], _ => none
  | (k, v) :: rest, j => if k = j then some v else Obj.get rest j

/-- The JS `key in obj` membership test. -/
def Obj.hasKey {V : Type} (o : Obj V) (k : Key) : Bool :=
  (Obj.get o k).isSome

/-- The JS spread merge of two objects: bindings of the second
object win on common keys, all other bindings of the first survive. -/
def spread {V : Type} (a b : Obj V) : Obj V :=
  a.filter (fun p => ! Obj.hasKey b p.1) ++ b

/-- Text stored under the storage key: either the JSON serialization of a
structured mapping, or text that does not parse as one. -/
inductive StoredText (V : Type) where
  | json (o : Obj V)
  | malformed
deriving DecidableEq

/-- JSON.parse on stored text: serialized mappings parse back to
themselves, malformed text raises a SyntaxError. -/
def jsonParse {V : Type} : StoredText V → Except String (Obj V)
  | .json o => .ok o
  | .malformed => .error "SyntaxError"

/-- The provider's observable state: the React state pair
(`globalState`, `isLoading`) together with the async-storage contents
filed under the configured storage key. -/
structure Store (V : Type) where
  globalState : Obj V
  isLoading : Bool
  storage : Option (StoredText V)
deriving DecidableEq

/-- The store at mount: `useState({})` and `useState(true)`; the storage
slot holds whatever was persisted by an earlier session. -/
def mountStore {V : Type} (storage : Option (StoredText V)) : Store V :=
  { globalState := [], isLoading := true, storage := storage }

/-- The extraction loop of `persistData`: for each whitelist key that is
present in the updated state, copy its value into the payload object. -/
def dataToPersist {V : Type} (updatedState : Obj V) (persistedKeys : List Key) : Obj V :=
  persistedKeys.foldl
    (fun acc key =>
      match Obj.get updatedState key with
      | some v => acc ++ [(key, v)]
      | none => acc)
    []

/-- `persistData`: serializes the whitelisted payload into storage, but
only when the payload has at least one key; otherwise storage is left
untouched. Write failures are caught and logged in the source, leaving
storage unchanged, so only completed writes are modelled. -/
def persistData {V : Type} (updatedState : Obj V) (persistedKeys : List Key)
    (storage : Option (StoredText V)) : Option (StoredText V) :=
  let d := dataToPersist updatedState persistedKeys
  if 0 < d.length then some (StoredText.json d) else storage

/-- `setGlobalState`: merges the partial mapping onto the latest snapshot
(the functional `updateState(prevState => ...)` form), persists when the
whitelist is non-empty, and hands the merged snapshot to the optional
callback inside the same update. Returns the new store together with the
value the callback receives. -/
def setGlobalStateFull {V : Type} (patch : Obj V) (persistedKeys : List Key)
    (s : Store V) : Store V × Obj V :=
  let updatedState := spread s.globalState patch
  let storage :=
    if 0 < persistedKeys.length then persistData updatedState persistedKeys s.storage
    else s.storage
  ({ globalState := updatedState, isLoading := s.isLoading, storage := storage },
    updatedState)

/-- `setGlobalState`, keeping only the store. -/
def setGlobalState {V : Type} (patch : Obj V) (persistedKeys : List Key)
    (s : Store V) : Store V :=
  (setGlobalStateFull patch persistedKeys s).1

/-- A sequence of setter calls applied in order. -/
def applySetters {V : Type} (patches : List (Obj V)) (persistedKeys : List Key)
    (s : Store V) : Store V :=
  patches.foldl (fun st p => setGlobalState p persistedKeys st) s

/-- `loadPersistedData`, the body of the mount effect. `readResult` is the
outcome of `AsyncStorage.getItem(storageKey)`. `JSON.parse` runs inside
the same try block as the read, so a parse failure falls into the catch
branch, which falls back to the initial state; the finally branch clears
the loading flag on every path. -/
def loadPersistedData {V : Type} (readResult : Except String (Option (StoredText V)))
    (initialState : Obj V) (persistedKeys : List Key) (s : Store V) : Store V :=
  let afterTry :=
    match readResult with
    | .ok (some txt) =>
      match jsonParse txt with
      | .ok parsedData =>
        setGlobalState (spread initialState parsedData) persistedKeys s
      | .error _ => setGlobalState initialState persistedKeys s
    | .ok none => setGlobalState initialState persistedKeys s
    | .error _ => setGlobalState initialState persistedKeys s
  { afterTry with isLoading := false }

/-- The provider renders the fallback loadingUI exactly when the loading
flag is set: `if (isLoading) return loadingUI`. -/
def rendersFallback {V : Type} (s : Store V) : Bool :=
  s.isLoading

/-- The dependency array of the load effect, as written in the source:
`[initialState, storageKey]`. -/
def loadEffectDeps {V : Type} (initialState : Obj V) (storageKey : String) :
    Obj V × String :=
  (initialState, storageKey)

/-- React's rule for a dependency array: the effect runs again after a
render exactly when some entry of the array changed. -/
def effectRunsAgain {V : Type} [DecidableEq V] (prevDeps currDeps : Obj V × String) : Bool :=
  decide (¬ prevDeps = currDeps)

/-- A property value handed to a connected class component: either a
global-state value or the injected setter function. -/
inductive PropValue (V : Type) where
  | val (v : V)
  | setter
deriving DecidableEq

/-- The props object the connect adapter builds for the wrapped component:
the wrapper's own props, then every global-state key spread individually,
then the `setGlobalState` property. -/
def connectRender {V : Type} (ownProps : Obj (PropValue V)) (globalState : Obj V) :
    Obj (PropValue V) :=
  spread (spread ownProps (globalState.map (fun p => (p.1, PropValue.val p.2))))
    [("setGlobalState", PropValue.setter)]

/-- Modelled from the spec: the left-to-right shallow merge of an initial
state with a sequence of partial mappings, `initialState, P1, ..., Pn`. -/
def mergeAll {V : Type} (initialState : Obj V) (patches : List (Obj V)) : Obj V :=
  patches.foldl spread initialState

/-- Modelled from the spec: the persisted subset, the current state
restricted to exactly the whitelist keys present in it. -/
def specRestrict {V : Type} (o : Obj V) (ks : List Key) : Obj V :=
  ks.filterMap (fun k => (Obj.get o k).map (fun v => (k, v)))

/-- Lookup in a concatenation checks the left object first. -/
theorem Obj.get_append {V : Type} (a b : Obj V) (k : Key) :
    Obj.get (a ++ b) k = (Obj.get a k).or (Obj.get b k) := by
  induction a with
  | nil => simp [Obj.get]
  | cons p rest ih =>
    obtain ⟨k1, v1⟩ := p
    by_cases h : k1 = k <;> simp [Obj.get, h, ih]

/-- Keys present in the right operand are gone from the filtered left
operand of a spread. -/
theorem Obj.get_filter_spread {V : Type} (a b : Obj V) (k : Key) :
    Obj.get (a.filter (fun p => ! Obj.hasKey b p.1)) k
      = if Obj.hasKey b k then none else Obj.get a k := by
  induction a with
  | nil => simp [Obj.get]
  | cons p rest ih =>
    obtain ⟨k1, v1⟩ := p
    by_cases hb : Obj.hasKey b k1
    · by_cases he : k1 = k
      · subst he
        simp [List.filter_cons, hb, ih]
      · simp [List.filter_cons, hb, Obj.get, he, ih]
    · by_cases he : k1 = k
      · subst he
        simp [List.filter_cons, hb, Obj.get, ih]
      · simp [List.filter_cons, hb, Obj.get, he, ih]

/-- Pointwise description of the spread merge: the second object wins
where it has the key, the first object answers otherwise. -/
theorem get_spread {V : Type} (a b : Obj V) (k : Key) :
    Obj.get (spread a b) k = (Obj.get b k).or (Obj.get a k) := by
  rw [spread, Obj.get_append, Obj.get_filter_spread]
  cases hb : Obj.get b k <;>
    simp [Obj.hasKey, hb]

/-- Spreading onto the empty object is the identity. -/
theorem spread_nil {V : Type} (b : Obj V) : spread [] b = b := rfl

/-- The update loop of persistData computes exactly the spec's whitelist
restriction of the snapshot. -/
theorem dataToPersist_eq_specRestrict {V : Type} (o : Obj V) (ks : List Key) :
    dataToPersist o ks = specRestrict o ks := by
  have step : ∀ (ks : List Key) (acc : Obj V),
      ks.foldl
        (fun acc key =>
          match Obj.get o key with
          | some v => acc ++ [(key, v)]
          | none => acc)
        acc
      = acc ++ specRestrict o ks := by
    intro ks
    induction ks with
    | nil => intro acc; simp [specRestrict]
    | cons j ks ih =>
      intro acc
      cases hj : Obj.get o j <;>
        simp [List.foldl_cons, specRestrict, List.filterMap_cons, hj, ih, List.append_assoc]
  simpa using step ks []

/-- Lookup in the mapped object is the mapped lookup. -/
theorem Obj.get_mapSnd {V W : Type} (f : V → W) (o : Obj V) (k : Key) :
    Obj.get (o.map (fun p => (p.1, f p.2))) k = (Obj.get o k).map f := by
  induction o with
  | nil => simp [Obj.get]
  | cons p rest ih =>
    obtain ⟨k1, v1⟩ := p
    by_cases h : k1 = k <;> simp [Obj.get, h, ih]

/-- Pointwise description of the whitelist restriction. -/
theorem get_specRestrict {V : Type} (o : Obj V) (ks : List Key) (k : Key) :
    Obj.get (specRestrict o ks) k = if k ∈ ks then Obj.get o k else none := by
  induction ks with
  | nil => simp [specRestrict, Obj.get]
  | cons j ks ih =>
    simp [specRestrict] at ih ⊢
    by_cases he : j = k
    · subst he
      cases hj : Obj.get o j <;>
        simp [List.filterMap_cons, hj, Obj.get, ih]
    · cases hj : Obj.get o j <;>
        simp [List.filterMap_cons, hj, Obj.get, he, ih, Ne.symm he]

/-- The state reached by a sequence of setter calls is the left fold of
the spread merge over the patches. -/
theorem applySetters_globalState {V : Type} (patches : List (Obj V))
    (persistedKeys : List Key) (s : Store V) :
    (applySetters patches persistedKeys s).globalState
      = patches.foldl spread s.globalState := by
  induction patches generalizing s with
  | nil => rfl
  | cons p ps ih =>
    simp [applySetters, List.foldl_cons] at ih ⊢
    rw [ih]
    rfl

/-- Setter calls never touch the loading flag. -/
theorem applySetters_isLoading {V : Type} (patches : List (Obj V))
    (persistedKeys : List Key) (s : Store V) :
    (applySetters patches persistedKeys s).isLoading = s.isLoading := by
  induction patches generalizing s with
  | nil => rfl
  | cons p ps ih =>
    simp [applySetters, List.foldl_cons] at ih ⊢
    rw [ih]
    rfl

/-- C1: after any sequence of setter calls with patches P1..Pn applied in
order to the freshly loaded store, the state visible to consumers is the
left-to-right shallow merge of the initial state with P1..Pn; the general
fold form over an arbitrary current store shows that each merge reads the
most recent snapshot, never a stale one. -/
theorem setter_sequence_is_left_merge {V : Type} (initialState : Obj V)
    (patches : List (Obj V)) (persistedKeys : List Key)
    (storage0 : Option (StoredText V)) :
    (applySetters patches persistedKeys
        (loadPersistedData (Except.ok none) initialState persistedKeys
          (mountStore storage0))).globalState
      = mergeAll initialState patches
    ∧ ∀ s : Store V,
        (applySetters patches persistedKeys s).globalState
          = List.foldl spread s.globalState patches := by
  constructor
  · rw [applySetters_globalState]
    rfl
  · intro s
    exact applySetters_globalState patches persistedKeys s

/-- C2: at mount the loading flag is set and the fallback UI is rendered;
resolving the load, in every one of the three outcomes, clears the flag;
and no setter call ever changes the flag, so once cleared the fallback is
never rendered again for the rest of the mounted lifetime. -/
theorem loading_flag_one_way {V : Type} :
    (∀ storage0 : Option (StoredText V), rendersFallback (mountStore storage0) = true)
    ∧ (∀ (readResult : Except String (Option (StoredText V))) (initialState : Obj V)
        (persistedKeys : List Key) (s : Store V),
        rendersFallback (loadPersistedData readResult initialState persistedKeys s) = false)
    ∧ (∀ (patches : List (Obj V)) (persistedKeys : List Key) (s : Store V),
        rendersFallback (applySetters patches persistedKeys s) = rendersFallback s) := by
  refine ⟨fun _ => rfl, fun _ _ _ _ => rfl, fun patches ks s => ?_⟩
  exact applySetters_isLoading patches ks s

/-- C3: the load effect declares the dependency array
[initialState, storageKey], so changing the storageKey prop after mount
makes the effect, and with it the whole load step, run again — against
the claim and the source's own comment that the load runs on mount only. -/
theorem load_effect_reruns_on_prop_change :
    effectRunsAgain (loadEffectDeps ([("a", 1)] : Obj Nat) "GlobalStateProvider")
      (loadEffectDeps [("a", 1)] "Other") = true := by
  decide

/-- C4: when the load resolves with no prior data the live state answers
exactly as the caller-supplied initial state; when it resolves with prior
data D the live state is the shallow merge of the initial state with D,
D winning on overlapping keys. -/
theorem load_state_merges_persisted {V : Type} (initialState D : Obj V)
    (persistedKeys : List Key) (storage0 : Option (StoredText V)) (k : Key) :
    Obj.get (loadPersistedData (Except.ok none) initialState persistedKeys
        (mountStore storage0)).globalState k
      = Obj.get initialState k
    ∧ Obj.get (loadPersistedData (Except.ok (some (StoredText.json D))) initialState
        persistedKeys (mountStore storage0)).globalState k
      = (Obj.get D k).or (Obj.get initialState k) := by
  constructor
  · rfl
  · show Obj.get (spread [] (spread initialState D)) k = _
    rw [spread_nil, get_spread]

/-- C5: with an empty persistence whitelist, no sequence of setter calls
ever writes to storage: the stored contents are unchanged. -/
theorem empty_whitelist_never_writes {V : Type} (patches : List (Obj V)) (s : Store V) :
    (applySetters patches [] s).storage = s.storage := by
  induction patches generalizing s with
  | nil => rfl
  | cons p ps ih =>
    simp [applySetters, List.foldl_cons] at ih ⊢
    rw [ih]
    rfl

/-- C6: the persisted payload is exactly the merged snapshot restricted to
the whitelist keys present in it: the extraction loop computes the spec's
restriction, and pointwise the payload answers a key iff it is a whitelist
key present in the snapshot — absent whitelist keys are omitted, never
written as empty or null. -/
theorem persisted_payload_is_restriction {V : Type} (prev patch : Obj V)
    (persistedKeys : List Key) (k : Key) :
    dataToPersist (spread prev patch) persistedKeys
      = specRestrict (spread prev patch) persistedKeys
    ∧ Obj.get (dataToPersist (spread prev patch) persistedKeys) k
      = if k ∈ persistedKeys then Obj.get (spread prev patch) k else none := by
  refine ⟨dataToPersist_eq_specRestrict _ _, ?_⟩
  rw [dataToPersist_eq_specRestrict, get_specRestrict]

/-- C7: the value handed to the completion callback in the same update
step is the new full merged snapshot — identical to the state the setter
installs, and containing every key of the merge, not the
whitelist-filtered subset. -/
theorem callback_gets_full_snapshot {V : Type} (patch : Obj V)
    (persistedKeys : List Key) (s : Store V) (k : Key) :
    (setGlobalStateFull patch persistedKeys s).2
      = (setGlobalState patch persistedKeys s).globalState
    ∧ Obj.get (setGlobalStateFull patch persistedKeys s).2 k
      = (Obj.get patch k).or (Obj.get s.globalState k) := by
  exact ⟨rfl, get_spread _ _ _⟩

/-- C8 counterexample: at a concrete malformed stored text the load step
ends in exactly the same store as a storage read error — the parse failure
is caught, not propagated, and the state falls back to the initial
state. -/
theorem parse_failure_recovered_cex :
    loadPersistedData (Except.ok (some StoredText.malformed)) [("a", 1)] []
        (mountStore (V := Nat) (some StoredText.malformed))
      = loadPersistedData (Except.error "read failure") [("a", 1)] []
        (mountStore (some StoredText.malformed))
    ∧ (loadPersistedData (Except.ok (some StoredText.malformed)) [("a", 1)] []
        (mountStore (V := Nat) (some StoredText.malformed))).globalState
      = [("a", 1)] := by
  exact ⟨rfl, rfl⟩

/-- C8 amended: a parse failure during the initial load is caught by the
load step's catch branch and treated exactly like a storage read error:
the resulting store is identical to the read-error outcome, and the live
state falls back to the caller-supplied initial state. -/
theorem parse_failure_handled_as_read_error {V : Type} (e : String)
    (initialState : Obj V) (persistedKeys : List Key) (s : Store V) (k : Key) :
    loadPersistedData (Except.ok (some StoredText.malformed)) initialState
        persistedKeys s
      = loadPersistedData (Except.error e) initialState persistedKeys s
    ∧ Obj.get (loadPersistedData (Except.ok (some StoredText.malformed)) initialState
        persistedKeys s).globalState k
      = (Obj.get initialState k).or (Obj.get s.globalState k) := by
  exact ⟨rfl, get_spread _ _ _⟩

/-- C9: the props the connect adapter builds answer the setGlobalState key
with the injected setter, answer every global-state key with its state
value, and forward any other property of the wrapper unchanged. -/
theorem connect_props_characterization {V : Type} (ownProps : Obj (PropValue V))
    (globalState : Obj V) (k : Key) :
    Obj.get (connectRender ownProps globalState) k
      = if k = "setGlobalState" then some PropValue.setter
        else ((Obj.get globalState k).map PropValue.val).or (Obj.get ownProps k) := by
  rw [connectRender, get_spread, get_spread, Obj.get_mapSnd]
  by_cases h : k = "setGlobalState"
  · subst h
    simp [Obj.get]
  · simp [Obj.get, h, Ne.symm h]

/-- C10: when no whitelist key is present in the merged snapshot, the
setter performs no storage write at all — previously persisted contents
are left untouched rather than overwritten with an empty mapping. -/
theorem no_write_when_whitelist_keys_absent {V : Type} (patch : Obj V)
    (persistedKeys : List Key) (s : Store V)
    (h : ∀ k ∈ persistedKeys, Obj.get (spread s.globalState patch) k = none) :
    (setGlobalState patch persistedKeys s).storage = s.storage := by
  have hd : dataToPersist (spread s.globalState patch) persistedKeys = [] := by
    rw [dataToPersist_eq_specRestrict, specRestrict, List.filterMap_eq_nil_iff]
    intro a ha
    rw [h a ha]
    rfl
  by_cases hl : 0 < persistedKeys.length
  · simp [setGlobalState, setGlobalStateFull, hl, persistData, hd]
  · simp [setGlobalState, setGlobalStateFull, hl]

/-- C10 witness: with whitelist ["a"] and a setter call whose merge
produces only key "b", the previously stored contents survive. -/
theorem no_write_when_whitelist_keys_absent_witness :
    (∀ k ∈ (["a"] : List Key),
        Obj.get (spread (mountStore (V := Nat)
          (some (StoredText.json [("old", 7)]))).globalState [("b", 2)]) k = none)
    ∧ (setGlobalState [("b", 2)] ["a"]
        (mountStore (V := Nat) (some (StoredText.json [("old", 7)])))).storage
      = some (StoredText.json [("old", 7)]) := by
  refine ⟨by decide, ?_⟩
  rw [no_write_when_whitelist_keys_absent [("b", 2)] ["a"] _ (by decide)]
  rfl

end GlobalStore
